import Mathlib

/-!
Verification development for the LetterTiles Lobby & Session Engine
(`backend/src/index.ts`).  The backend is shallowly embedded: JS `Map`s
become association lists, JS `Set`s become duplicate-free lists grown with
`addS`, transport ids become naturals, machine numbers become `Nat`/`Int`,
and `Math.round` on the exact streak multipliers becomes rounding of exact
rationals half towards positive infinity.  Randomness (letter draws and
shuffles) is passed in explicitly; the unbounded last-resort loop of the
session builder consumes an explicit fuel budget and returns `none` when it
runs out, mirroring divergence.
-/

set_option maxRecDepth 100000

namespace LetterTiles

/-- Words and letters are lists of characters (JS strings). -/
abbrev Word := List Char

/-- Transport/session ids (socket ids). -/
abbrev PId := Nat

/- Constants from backend/src/index.ts. -/
def MIN_PLAYERS_TO_START : Nat := 2
def MAX_PLAYERS : Nat := 7
def LOBBY_COUNTDOWN_SECONDS : Nat := 5
def SESSION_SECONDS : Nat := 120
def LETTER_COUNT : Nat := 6
def MIN_WORD_LENGTH : Nat := 3
def MAX_WORD_LENGTH : Nat := 6
def TARGET_WORD_MIN : Nat := 30
def TARGET_WORD_MAX : Nat := 30
def DISCONNECT_GRACE_PERIOD : Nat := 60000
def POINTS_PER_LETTER : Nat := 100
def INVALID_WORD_PENALTY : Nat := 50
def ALL_HIDDEN_BONUS : Nat := 3000
def MAX_SESSION_ATTEMPTS : Nat := 120

/-- A player record (`type Player`); the cosmetic `avatarColor` is omitted. -/
structure Player where
  id : PId
  name : String
  score : Int
  streakCount : Nat
  streakPoints : Nat
  streakBonusApplied : Int
  ready : Bool
deriving DecidableEq, Repr

/-- JS `Map.get`: first binding of the key, if any. -/
def getA {α β : Type} [DecidableEq α] : List (α × β) → α → Option β
  | [], _ => none
  | (k, v) :: rest, a => if k = a then some v else getA rest a

/-- JS `Map.set`: replace the binding in place, else append. -/
def setA {α β : Type} [DecidableEq α] : List (α × β) → α → β → List (α × β)
  | [], a, b => [(a, b)]
  | (k, v) :: rest, a, b => if k = a then (a, b) :: rest else (k, v) :: setA rest a b

/-- JS `Map.delete`: drop the bindings of the key. -/
def eraseA {α β : Type} [DecidableEq α] : List (α × β) → α → List (α × β)
  | [], _ => []
  | (k, v) :: rest, a => if k = a then eraseA rest a else (k, v) :: eraseA rest a

/-- JS `Set.add`: append unless already present (insertion order kept). -/
def addS {α : Type} [DecidableEq α] (s : List α) (a : α) : List α :=
  if a ∈ s then s else s ++ [a]

/-- Mutating the player object returned by `Array.find`: replace the first
roster entry carrying the id. -/
def replaceFirst : List Player → PId → Player → List Player
  | [], _, _ => []
  | q :: rest, pid, p => if q.id = pid then p :: rest else q :: replaceFirst rest pid p

/-- `getLengthBonus` (index.ts:677). -/
def getLengthBonus (length : Nat) : Nat :=
  if length = 4 then 50
  else if length = 5 then 100
  else if length = 6 then 200
  else 0

/-- `getHiddenBonus` (index.ts:690). -/
def getHiddenBonus (length : Nat) : Nat :=
  if length = 3 then 150
  else if length = 4 then 300
  else if length = 5 then 750
  else if length = 6 then 1600
  else 0

/-- `getStreakMultiplier` (index.ts:705), as an exact rational. -/
def getStreakMultiplier (streakCount : Nat) : ℚ :=
  if 5 ≤ streakCount then 0.5
  else if streakCount = 4 then 0.35
  else if streakCount = 3 then 0.2
  else if streakCount = 2 then 0.1
  else 0

/-- JS `Math.round`: round half towards positive infinity. -/
def jsRound (q : ℚ) : Int := ⌊q + 1/2⌋

/-- `getStreakMultiplier` expressed in twentieths (0.5 = 10/20,
0.35 = 7/20, 0.2 = 4/20, 0.1 = 2/20), for integer evaluation. -/
def streakMultiplier20 (streakCount : Nat) : Nat :=
  if 5 ≤ streakCount then 10
  else if streakCount = 4 then 7
  else if streakCount = 3 then 4
  else if streakCount = 2 then 2
  else 0

/-- `Math.round(streakPoints * multiplier)` (index.ts:731): every tier
multiplier is an exact multiple of 1/20, so rounding the product half-up
is this integer computation; `roundedStreakBonus_eq` proves it equal to
`jsRound` of the exact rational product. -/
def roundedStreakBonus (streakPoints streakCount : Nat) : Nat :=
  (streakPoints * streakMultiplier20 streakCount + 10) / 20

/-- `resetStreak` (index.ts:721). -/
def resetStreak (player : Player) : Player :=
  { player with streakCount := 0, streakPoints := 0, streakBonusApplied := 0 }

/-- `applyValidScore` (index.ts:727). -/
def applyValidScore (player : Player) (wordPoints : Nat) : Player :=
  let streakCount := player.streakCount + 1
  let streakPoints := player.streakPoints + wordPoints
  let streakBonusTotal : Int := (roundedStreakBonus streakPoints streakCount : Int)
  let streakBonusDelta := streakBonusTotal - player.streakBonusApplied
  { player with
      streakCount := streakCount,
      streakPoints := streakPoints,
      streakBonusApplied := streakBonusTotal,
      score := player.score + (wordPoints : Int) + streakBonusDelta }

/-- `applyInvalidPenalty` (index.ts:737). -/
def applyInvalidPenalty (player : Player) : Player :=
  resetStreak { player with score := max 0 (player.score - (INVALID_WORD_PENALTY : Int)) }

/-- The letter-count map of `canFormWord` (index.ts:661-665): each letter,
lowercased, increments its count; a key absent from the JS `Map` reads as 0,
exactly as the `!remaining` falsiness test treats it. -/
def buildCounts (lettersInput : List Char) : Char → Nat :=
  lettersInput.foldl
    (fun counts letter =>
      let key := letter.toLower
      Function.update counts key (counts key + 1))
    (fun _ => 0)

/-- The consuming loop of `canFormWord` (index.ts:667-674). -/
def canFormAux : (Char → Nat) → List Char → Bool
  | _, [] => true
  | counts, c :: rest =>
    let remaining := counts c
    if remaining = 0 then false
    else canFormAux (Function.update counts c (remaining - 1)) rest

/-- `canFormWord` (index.ts:660). -/
def canFormWord (lettersInput : List Char) (word : Word) : Bool :=
  canFormAux (buildCounts lettersInput) word

/-- JS `String.trim` on a word (whitespace at both ends dropped). -/
def isWsChar (c : Char) : Bool :=
  c == ' ' || c == '\t' || c == '\n' || c == '\r'

/-- Drop leading and trailing whitespace. -/
def trimChars (w : Word) : Word :=
  ((w.dropWhile isWsChar).reverse.dropWhile isWsChar).reverse

/-- `word?.trim().toLowerCase() || ""` (index.ts:1242). -/
def normalize (w : Word) : Word :=
  (trimChars w).map Char.toLower

/-- The dictionary construction (index.ts:166-168): trim and lowercase every
raw line, keep lengths 3 to 6.  The raw word list itself is an external
read-only input, passed in as a parameter. -/
def dictionaryOf (rawWords : List Word) : List Word :=
  (rawWords.map (fun word => (trimChars word).map Char.toLower)).filter
    (fun word => decide (MIN_WORD_LENGTH ≤ word.length) && decide (word.length ≤ MAX_WORD_LENGTH))

/-- `dictionarySet.has` (index.ts:169): dictionary membership. -/
def isWord (rawWords : List Word) (w : Word) : Bool :=
  decide (w ∈ dictionaryOf rawWords)

/-- `pickSessionWords` (index.ts:742), parameterized over the random shuffle
of this attempt.  `TARGET_WORD_MIN = TARGET_WORD_MAX`, so the random term
`Math.floor(Math.random() * 1)` of `targetCount` is 0. -/
def pickSessionWords (dict : List Word) (lettersInput : List Char)
    (shuffleOf : List Word → List Word) : List Word :=
  let validWords := dict.filter (fun word => canFormWord lettersInput word)
  let targetCount := TARGET_WORD_MIN
  let shuffled := shuffleOf validWords
  shuffled.take (min targetCount shuffled.length)

/-- `candidateWords.some((word) => word.length === LETTER_COUNT)`. -/
def hasSixLetter (ws : List Word) : Bool :=
  ws.any (fun word => decide (word.length = LETTER_COUNT))

/-- Which of the four acceptance paths of `buildSession` produced the
session (instrumentation of the control flow of index.ts:752-809). -/
inductive BuildPath where
  | primary
  | bestFallback
  | secondLoop
  | forced
deriving DecidableEq, Repr

/-- The letters and session words `buildSession` installs, with the path
that produced them. -/
structure BuildResult where
  letters : List Char
  words : List Word
  path : BuildPath
deriving DecidableEq, Repr

/-- The 120-attempt best-candidate tracking of the first loop of
`buildSession` (index.ts:766-769): among failed attempts, keep the largest
candidate list that contains a six-letter word. -/
def bestAttempt (cand : Nat → List Char × List Word) : List Char × List Word :=
  (List.range MAX_SESSION_ATTEMPTS).foldl
    (fun acc i =>
      if hasSixLetter (cand i).2 && decide (acc.2.length < (cand i).2.length)
      then cand i else acc)
    ([], [])

/-- `buildSession` (index.ts:752-809).  `gen i` is the `generateLetters`
draw of attempt `i` and `shuf i` its shuffle; the first loop consumes
draws 0..119, the bounded retry loop draws 120..239, and the last-resort
unbounded loop (index.ts:789-802) draws from 240 on, bounded here by an
explicit `fuel`; exhausting the fuel (`none`) models its divergence. -/
def buildSession (dict : List Word) (gen : Nat → List Char)
    (shuf : Nat → List Word → List Word) (fuel : Nat) : Option BuildResult :=
  let cand := fun i => (gen i, pickSessionWords dict (gen i) (shuf i))
  match (List.range MAX_SESSION_ATTEMPTS).find?
      (fun i => decide (TARGET_WORD_MIN ≤ (cand i).2.length) && hasSixLetter (cand i).2) with
  | some i => some ⟨(cand i).1, (cand i).2, BuildPath.primary⟩
  | none =>
    let best := bestAttempt cand
    if best.2.length ≠ 0 then some ⟨best.1, best.2, BuildPath.bestFallback⟩
    else
      match ((List.range MAX_SESSION_ATTEMPTS).map (· + MAX_SESSION_ATTEMPTS)).find?
          (fun i => hasSixLetter (cand i).2) with
      | some i => some ⟨(cand i).1, (cand i).2, BuildPath.secondLoop⟩
      | none =>
        match ((List.range fuel).map (· + 2 * MAX_SESSION_ATTEMPTS)).find?
            (fun i => hasSixLetter (cand i).2) with
        | some i => some ⟨(cand i).1, (cand i).2, BuildPath.forced⟩
        | none => none

/-- Lobby lifecycle (`GameState.status`). -/
inductive Status where
  | lobby
  | active
  | ended
deriving DecidableEq, Repr

/-- The snapshot of a departed player held by the disconnect manager
(`type DisconnectedPlayer`); the cleanup timer handle is represented by the
record's presence in `disconnectedPlayers`. -/
structure DiscRecord where
  player : Player
  revealedWords : List Nat
  disconnectedAt : Nat
deriving DecidableEq, Repr

/-- One lobby (`type Lobby`), restricted to the state the engine logic
reads and writes: cosmetic broadcast fields (`lastAction`, `winner`,
`cards`, chat) are omitted; `botIds` stands for the keys of `botMeta`;
`countdownActive` stands for the lobby-countdown timer/interval/deadline
being non-null. -/
structure Lobby where
  status : Status
  letters : List Char
  sessionWords : List Word
  wordIndex : List (Word × Nat)
  players : List Player
  revealedByPlayer : List (PId × List Nat)
  submittedWords : List (PId × List Word)
  hiddenBonusAwarded : List PId
  disconnectedPlayers : List (String × DiscRecord)
  botIds : List PId
  countdownActive : Bool
deriving DecidableEq, Repr

/-- `getPlayer` (index.ts:966). -/
def getPlayer (l : Lobby) (id : PId) : Option Player :=
  l.players.find? (fun player => decide (player.id = id))

/-- `new Map(sessionWords.map((word, index) => [word, index]))`
(index.ts:806): later duplicate words overwrite earlier indices. -/
def mkWordIndex (sessionWords : List Word) : List (Word × Nat) :=
  sessionWords.enum.foldl (fun m p => setA m p.2 p.1) []

/-- `allPlayersReady` (index.ts:987). -/
def allPlayersReady (l : Lobby) : Bool :=
  decide (MIN_PLAYERS_TO_START ≤ l.players.length) && l.players.all (fun player => player.ready)

/-- The acknowledgement of `submitWord` (`type SubmitAck` plus the signed
`points` field): `ok` carries the accepted word and score delta,
`rejected` a penalized error (`points: -50`), `errorOnly` a pure error. -/
inductive SubmitResult where
  | ok (word : Word) (points : Int)
  | rejected (error : String) (points : Int)
  | errorOnly (error : String)
deriving DecidableEq, Repr

/-- The `reject` closure of the `submitWord` handler (index.ts:1235-1241):
penalize the player and answer with `points: -INVALID_WORD_PENALTY`. -/
def rejectPenalty (l : Lobby) (pid : PId) (player : Player) (msg : String) :
    SubmitResult × Lobby :=
  (SubmitResult.rejected msg (-(INVALID_WORD_PENALTY : Int)),
   { l with players := replaceFirst l.players pid (applyInvalidPenalty player) })

/-- The accepting tail of the `submitWord` handler (index.ts:1278-1318):
record the word in the player's ledger, score it, and run the two
(duplicated) all-hidden bonus blocks.  `idx` is the hidden-word index of
the normalized word, `revealedAfter` the player's revealed set after the
reveal-marking step (written back only when `idx` is defined, as in the
source), `playerWords` the ledger before this word is added. -/
def finishSubmit (l : Lobby) (pid : PId) (player : Player) (normalized : Word)
    (idx : Option Nat) (revealedAfter : List Nat) (playerWords : List Word) :
    SubmitResult × Lobby :=
  let revealedByPlayer' :=
    match idx with
    | some _ => setA l.revealedByPlayer pid revealedAfter
    | none => l.revealedByPlayer
  let submittedWords' := setA l.submittedWords pid (addS playerWords normalized)
  let length := normalized.length
  let basePoints := length * POINTS_PER_LETTER
  let lengthBonus := getLengthBonus length
  let hiddenBonus := if idx.isSome then getHiddenBonus length else 0
  let wordPoints := basePoints + lengthBonus + hiddenBonus
  let scoreBefore := player.score
  let p1 := applyValidScore player wordPoints
  let grant1 := idx.isSome && decide (revealedAfter.length = l.sessionWords.length)
    && !(decide (pid ∈ l.hiddenBonusAwarded))
  let p2 := if grant1 then { p1 with score := p1.score + (ALL_HIDDEN_BONUS : Int) } else p1
  let awarded1 := if grant1 then addS l.hiddenBonusAwarded pid else l.hiddenBonusAwarded
  let grant2 := idx.isSome && decide (revealedAfter.length = l.sessionWords.length)
    && !(decide (pid ∈ awarded1))
  let p3 := if grant2 then { p2 with score := p2.score + (ALL_HIDDEN_BONUS : Int) } else p2
  let awarded2 := if grant2 then addS awarded1 pid else awarded1
  let scoreDelta := p2.score - scoreBefore
  (SubmitResult.ok (normalized.map Char.toUpper) scoreDelta,
   { l with
       players := replaceFirst l.players pid p3,
       revealedByPlayer := revealedByPlayer',
       submittedWords := submittedWords',
       hiddenBonusAwarded := awarded2 })

/-- The `submitWord` handler (index.ts:1214-1319), as a pure transition on
the lobby; the global dictionary is a parameter. -/
def submitWord (dict : List Word) (l : Lobby) (pid : PId) (raw : Word) :
    SubmitResult × Lobby :=
  if l.status ≠ Status.active then (SubmitResult.errorOnly "Round is not active.", l)
  else
    match getPlayer l pid with
    | none => (SubmitResult.errorOnly "Player not found.", l)
    | some player =>
      let normalized := normalize raw
      if normalized.length < MIN_WORD_LENGTH then
        rejectPenalty l pid player "Word is too short."
      else if ¬ normalized ∈ dict then
        rejectPenalty l pid player "Not a valid word."
      else if ¬ canFormWord l.letters normalized = true then
        rejectPenalty l pid player "Word uses unavailable letters."
      else
        let playerWords := (getA l.submittedWords pid).getD []
        if normalized ∈ playerWords then
          (SubmitResult.errorOnly "You already submitted this word.", l)
        else
          match getA l.wordIndex normalized with
          | some i =>
            if i ∈ (getA l.revealedByPlayer pid).getD [] then
              rejectPenalty l pid player "Word already revealed."
            else
              finishSubmit l pid player normalized (some i)
                (addS ((getA l.revealedByPlayer pid).getD []) i) playerWords
          | none =>
            finishSubmit l pid player normalized none
              ((getA l.revealedByPlayer pid).getD []) playerWords

/-- The state change of `botSubmitWord` after its candidate word is fixed
(index.ts:448-450 guards and 508-537): no validation, silent reveal
marking, ledger update, scoring, and a single all-hidden bonus block. -/
def botApplyPick (l : Lobby) (botId : PId) (normalized : Word) : Lobby :=
  match getPlayer l botId with
  | none => l
  | some bot =>
    if l.status ≠ Status.active then l
    else
      let submitted := (getA l.submittedWords botId).getD []
      let idx := getA l.wordIndex normalized
      let revealedByPlayer' :=
        match idx with
        | some i =>
          let revealedForPlayer := (getA l.revealedByPlayer botId).getD []
          if i ∈ revealedForPlayer then l.revealedByPlayer
          else setA l.revealedByPlayer botId (addS revealedForPlayer i)
        | none => l.revealedByPlayer
      let submittedWords' := setA l.submittedWords botId (addS submitted normalized)
      let length := normalized.length
      let basePoints := length * POINTS_PER_LETTER
      let lengthBonus := getLengthBonus length
      let hiddenBonus := if idx.isSome then getHiddenBonus length else 0
      let wordPoints := basePoints + lengthBonus + hiddenBonus
      let b1 := applyValidScore bot wordPoints
      let grant := idx.isSome
        && (match getA revealedByPlayer' botId with
            | some r => decide (r.length = l.sessionWords.length)
            | none => false)
        && !(decide (botId ∈ l.hiddenBonusAwarded))
      let b2 := if grant then { b1 with score := b1.score + (ALL_HIDDEN_BONUS : Int) } else b1
      let awarded' := if grant then addS l.hiddenBonusAwarded botId else l.hiddenBonusAwarded
      { l with
          players := replaceFirst l.players botId b2,
          revealedByPlayer := revealedByPlayer',
          submittedWords := submittedWords',
          hiddenBonusAwarded := awarded' }

/-- The client-visible side effects the claims track: `lobbyCountdown`
emissions (index.ts:837) and the `clearTimeout` of a disconnect grace
timer (index.ts:1174). -/
inductive Emit where
  | lobbyCountdown (value : Option Nat)
  | clearedCleanup (name : String)
deriving DecidableEq, Repr

/-- `stopLobbyCountdown` (index.ts:867-879): clear the timer, the interval
and the deadline, and emit `lobbyCountdown null`. -/
def stopLobbyCountdown (l : Lobby) : Lobby × List Emit :=
  ({ l with countdownActive := false }, [Emit.lobbyCountdown none])

/-- The random sources `buildSession` consumes: the `generateLetters`
draws, the per-attempt shuffles, and the fuel bounding the last-resort
loop. -/
structure BuildEnv where
  gen : Nat → List Char
  shuf : Nat → List Word → List Word
  fuel : Nat

/-- The state `buildSession` installs on the lobby (index.ts:762/800 and
804-808): letters, session words, the word index, and fresh reveal,
ledger and bonus maps. -/
def applyBuild (dict : List Word) (env : BuildEnv) (l : Lobby) : Option Lobby :=
  match buildSession dict env.gen env.shuf env.fuel with
  | some r =>
    some { l with
        letters := r.letters,
        sessionWords := r.words,
        wordIndex := mkWordIndex r.words,
        revealedByPlayer := [],
        submittedWords := [],
        hiddenBonusAwarded := [] }
  | none => none

/-- `scheduleLobbyCountdown` (index.ts:881-920): build the session if none
is prepared, arm the countdown, and emit its initial value.  `none` models
the divergence of `buildSession`'s last-resort loop. -/
def scheduleLobbyCountdown (dict : List Word) (env : BuildEnv) (l : Lobby) :
    Option (Lobby × List Emit) :=
  let build? := if l.sessionWords.length = 0 then applyBuild dict env l else some l
  match build? with
  | none => none
  | some l1 =>
    some ({ l1 with countdownActive := true },
      [Emit.lobbyCountdown (some LOBBY_COUNTDOWN_SECONDS)])

/-- The `setReady` handler (index.ts:1321-1339). -/
def setReady (dict : List Word) (env : BuildEnv) (l : Lobby) (sid : PId)
    (ready : Bool) : Option (Lobby × List Emit) :=
  match getPlayer l sid with
  | none => some (l, [])
  | some player =>
    let l1 := { l with players := replaceFirst l.players sid { player with ready := ready } }
    if l1.status = Status.lobby then
      if allPlayersReady l1 then scheduleLobbyCountdown dict env l1
      else some (stopLobbyCountdown l1)
    else some (l1, [])

/-- Outcome of the leave/disconnect handlers: the surviving lobby with its
emissions, or lobby destruction (`destroyLobby`, whose
`stopLobbyCountdown` call emits `lobbyCountdown null`). -/
inductive HOut where
  | live (l : Lobby) (ems : List Emit)
  | destroyed (ems : List Emit)
deriving DecidableEq, Repr

/-- `resetScores` (index.ts:811). -/
def resetScores (players : List Player) : List Player :=
  players.map (fun player =>
    { player with score := 0, streakCount := 0, streakPoints := 0, streakBonusApplied := 0 })

/-- `abortSessionWithoutCounting` (index.ts:298-331): stop the countdowns,
clear the session and per-round maps, return to lobby status, keep only
bots ready, and zero the scores. -/
def abortSession (l : Lobby) : Lobby × List Emit :=
  let s := stopLobbyCountdown l
  ({ s.1 with
      status := Status.lobby,
      letters := [],
      sessionWords := [],
      wordIndex := [],
      revealedByPlayer := [],
      submittedWords := [],
      hiddenBonusAwarded := [],
      players := resetScores (s.1.players.map (fun player =>
        { player with ready := decide (player.id ∈ l.botIds) })) },
   s.2)

/-- `handleLeaveLobby` (index.ts:1039-1068): remove the player and their
revealed set; destroy an emptied lobby; abort a bot-only lobby; otherwise
just broadcast — the lobby countdown is not touched. -/
def handleLeaveLobby (l : Lobby) (sid : PId) : HOut :=
  let players' := l.players.filter (fun player => decide (player.id ≠ sid))
  let l1 := { l with players := players', revealedByPlayer := eraseA l.revealedByPlayer sid }
  if l1.players.length = 0 then HOut.destroyed [Emit.lobbyCountdown none]
  else
    let humanRemaining := l1.players.any (fun p => !(decide (p.id ∈ l.botIds)))
    if !humanRemaining then HOut.live (abortSession l1).1 (abortSession l1).2
    else HOut.live l1 []

/-- The `disconnect` handler (index.ts:1390-1443): move the player into a
grace-period record keyed by display name, abort a bot-only lobby, stop
the countdown only when the remaining players are not all ready, destroy
the lobby when both rosters are empty. -/
def disconnectH (now : Nat) (l : Lobby) (sid : PId) : HOut :=
  match getPlayer l sid with
  | none => HOut.live l []
  | some leaving =>
    let players' := l.players.filter (fun player => decide (player.id ≠ sid))
    let revealedWords := (getA l.revealedByPlayer sid).getD []
    let l1 := { l with players := players', revealedByPlayer := eraseA l.revealedByPlayer sid }
    let humanRemaining := l1.players.any (fun p => !(decide (p.id ∈ l.botIds)))
    if !humanRemaining then HOut.live (abortSession l1).1 (abortSession l1).2
    else
      let l2 := { l1 with
        disconnectedPlayers := setA l1.disconnectedPlayers leaving.name
          ⟨leaving, revealedWords, now⟩ }
      let stopped := l2.status = Status.lobby ∧ ¬ allPlayersReady l2 = true
      let l3 := if stopped then (stopLobbyCountdown l2).1 else l2
      let ems := if stopped then (stopLobbyCountdown l2).2 else []
      if l3.players.length = 0 ∧ l3.disconnectedPlayers.length = 0 then
        HOut.destroyed (ems ++ [Emit.lobbyCountdown none])
      else HOut.live l3 ems

/-- Outcome of the `join` handler for one lobby. -/
inductive JoinOut where
  | joined (l : Lobby) (ems : List Emit)
  | joinErr (msg : String)
deriving DecidableEq, Repr

/-- `addPlayer` (index.ts:969-985): a fresh ready player with zero score
(the profanity mask is the identity for the default empty ban list). -/
def mkNewPlayer (sid : PId) (name : String) : Player :=
  { id := sid, name := name, score := 0, streakCount := 0, streakPoints := 0,
    streakBonusApplied := 0, ready := true }

/-- The body of the `join` handler from the reconnection check on
(index.ts:1170-1211): restore a grace-period record under the new
transport id (cancelling its cleanup timer), or add a fresh player and
possibly start the countdown. -/
def joinCore (dict : List Word) (env : BuildEnv) (l : Lobby) (sid : PId)
    (name : String) : Option JoinOut :=
  match getA l.disconnectedPlayers name with
  | some rec =>
    let player := { rec.player with id := sid }
    some (JoinOut.joined
      { l with
          players := l.players ++ [player],
          revealedByPlayer := setA l.revealedByPlayer sid rec.revealedWords,
          disconnectedPlayers := eraseA l.disconnectedPlayers name }
      [Emit.clearedCleanup name])
  | none =>
    let l1 := { l with players := l.players ++ [mkNewPlayer sid name] }
    if l1.status = Status.lobby ∧ allPlayersReady l1 = true then
      (scheduleLobbyCountdown dict env l1).map (fun s => JoinOut.joined s.1 s.2)
    else some (JoinOut.joined l1 [])

/-- The `join` handler (index.ts:1142-1212) resolved to one lobby:
`byId = true` is a join carrying an explicit `lobbyId` and runs the status
and capacity checks before the reconnection check; `byId = false` is the
auto-assign path (`getLobbyForJoin` only ever returns a joinable lobby). -/
def joinLobby (dict : List Word) (env : BuildEnv) (byId : Bool) (l : Lobby)
    (sid : PId) (name : String) : Option JoinOut :=
  if byId then
    if l.status ≠ Status.lobby then some (JoinOut.joinErr "Lobby is not accepting new players.")
    else if MAX_PLAYERS ≤ l.players.length then some (JoinOut.joinErr "Lobby is full.")
    else joinCore dict env l sid name
  else joinCore dict env l sid name

/-- A scoring step of a round: a human submission through the `submitWord`
handler, or a bot submission with its picked word. -/
inductive GStep where
  | human (pid : PId) (w : Word)
  | bot (pid : PId) (w : Word)
deriving DecidableEq, Repr

/-- Run one scoring step. -/
def gstep (dict : List Word) (l : Lobby) : GStep → Lobby
  | GStep.human pid w => (submitWord dict l pid w).2
  | GStep.bot pid w => botApplyPick l pid w

/-- How many steps of a round newly award the all-hidden bonus to `p`
(counting the steps at which `p` enters `hiddenBonusAwarded`). -/
def bonusGrantSteps (dict : List Word) (p : PId) : Lobby → List GStep → Nat
  | _, [] => 0
  | l, s :: rest =>
    let l' := gstep dict l s
    (if p ∉ l.hiddenBonusAwarded ∧ p ∈ l'.hiddenBonusAwarded then 1 else 0)
      + bonusGrantSteps dict p l' rest

/-- The per-submission score delta the spec's formula prescribes
(spec §4.2/§8): the word points plus the streak delta, i.e. the rounded
tier multiplier applied to the cumulative streak points minus the
previously applied streak bonus.  Spec-side definition, to be compared
with `applyValidScore`. -/
def specStreakDelta (p : Player) (wordPoints : Nat) : Int :=
  jsRound (((p.streakPoints + wordPoints : Nat) : ℚ)
    * getStreakMultiplier (p.streakCount + 1)) - p.streakBonusApplied

/-- Observation: the countdown flag of a handler outcome. -/
def houtCountdown : HOut → Option Bool
  | HOut.live l _ => some l.countdownActive
  | HOut.destroyed _ => none

/-- Observation: the emissions of a handler outcome. -/
def houtEmits : HOut → List Emit
  | HOut.live _ ems => ems
  | HOut.destroyed ems => ems

/- Concrete states used by witnesses and counterexamples. -/

def lettersCats : List Char := ['c', 'a', 't', 's', 'e', 'r']
def wcat : Word := ['c', 'a', 't']
def wcare : Word := ['c', 'a', 'r', 'e']
def wplanet : Word := ['p', 'l', 'a', 'n', 'e', 't']
def dictW : List Word := [wcat, wcare]

def pAlice : Player :=
  { id := 1, name := "ALICE", score := 0, streakCount := 0, streakPoints := 0,
    streakBonusApplied := 0, ready := true }
def pBob : Player :=
  { id := 2, name := "BOB", score := 0, streakCount := 0, streakPoints := 0,
    streakBonusApplied := 0, ready := true }
def pCara : Player :=
  { id := 3, name := "CARA", score := 0, streakCount := 0, streakPoints := 0,
    streakBonusApplied := 0, ready := true }
def pCaraUnready : Player := { pCara with ready := false }
def pAliceRich : Player :=
  { id := 1, name := "ALICE", score := 500, streakCount := 2, streakPoints := 450,
    streakBonusApplied := 45, ready := true }

/-- An active one-player round whose only session word is `cat`. -/
def L1 : Lobby :=
  { status := Status.active, letters := lettersCats, sessionWords := [wcat],
    wordIndex := [(wcat, 0)], players := [pAlice], revealedByPlayer := [],
    submittedWords := [], hiddenBonusAwarded := [], disconnectedPlayers := [],
    botIds := [], countdownActive := false }

/-- A lobby mid-countdown with three ready human players. -/
def L6 : Lobby :=
  { status := Status.lobby, letters := lettersCats, sessionWords := [wcat],
    wordIndex := [(wcat, 0)], players := [pAlice, pBob, pCara], revealedByPlayer := [],
    submittedWords := [], hiddenBonusAwarded := [], disconnectedPlayers := [],
    botIds := [], countdownActive := true }

/-- Like `L6` but the third player is not ready. -/
def L6c : Lobby := { L6 with players := [pAlice, pBob, pCaraUnready] }

/-- A deterministic random source: the `cats` letters and identity shuffles. -/
def envC : BuildEnv := ⟨fun _ => lettersCats, fun _ ws => ws, 0⟩

/-- A disconnect record for ALICE holding score 500 and revealed index 0. -/
def recAlice : DiscRecord := ⟨pAliceRich, [0], 40⟩

/-- An active round with ALICE disconnected mid-round. -/
def L8 : Lobby :=
  { status := Status.active, letters := lettersCats, sessionWords := [wcat, wcare],
    wordIndex := [(wcat, 0), (wcare, 1)], players := [pBob], revealedByPlayer := [],
    submittedWords := [], hiddenBonusAwarded := [],
    disconnectedPlayers := [("ALICE", recAlice)], botIds := [], countdownActive := false }

/-- A lobby-status lobby where ALICE holds revealed index 0 and a ledger. -/
def L8b : Lobby :=
  { status := Status.lobby, letters := lettersCats, sessionWords := [wcat, wcare],
    wordIndex := [(wcat, 0), (wcare, 1)], players := [pAliceRich, pBob],
    revealedByPlayer := [(1, [0])], submittedWords := [(1, [wcat])],
    hiddenBonusAwarded := [], disconnectedPlayers := [], botIds := [],
    countdownActive := false }

/-- ALICE's record under her new transport id 9. -/
def pAliceNew : Player := { pAliceRich with id := 9 }

/-- `L8` after ALICE's reconnection under transport id 9: the lobby the
join handler's reconnection branch produces. -/
def L10r : Lobby :=
  { L8 with
      players := L8.players ++ [{ recAlice.player with id := 9 }],
      revealedByPlayer := setA L8.revealedByPlayer 9 recAlice.revealedWords,
      disconnectedPlayers := eraseA L8.disconnectedPlayers "ALICE" }

/-- Six copies of the letter `a`. -/
def gsixA : List Char := List.replicate 6 'a'

/-- A 30-word dictionary over the letter `a` with one six-letter word. -/
def dictA : List Word := List.replicate 29 (List.replicate 3 'a') ++ [gsixA]

/- Basic lemmas on the map/set encodings. -/

theorem mem_addS_self {α : Type} [DecidableEq α] (s : List α) (a : α) : a ∈ addS s a := by
  unfold addS
  split
  · assumption
  · simp

theorem mem_addS_of_mem {α : Type} [DecidableEq α] {s : List α} {a : α} (b : α)
    (h : a ∈ s) : a ∈ addS s b := by
  unfold addS
  split
  · exact h
  · simp [h]

theorem mem_addS_iff {α : Type} [DecidableEq α] (s : List α) (a b : α) :
    a ∈ addS s b ↔ a ∈ s ∨ a = b := by
  unfold addS
  split
  · constructor
    · exact fun h => Or.inl h
    · rintro (h | rfl)
      · exact h
      · assumption
  · simp

theorem getA_setA_self {α β : Type} [DecidableEq α] (m : List (α × β)) (k : α) (v : β) :
    getA (setA m k v) k = some v := by
  induction m with
  | nil => simp [setA, getA]
  | cons kv rest ih =>
    by_cases h : kv.1 = k
    · simp [setA, getA, h]
    · simp [setA, getA, h, ih]

theorem getA_setA_ne {α β : Type} [DecidableEq α] (m : List (α × β)) (k k' : α) (v : β)
    (h : k' ≠ k) : getA (setA m k v) k' = getA m k' := by
  have h' : ¬ k = k' := fun hh => h hh.symm
  induction m with
  | nil => simp [setA, getA, h']
  | cons kv rest ih =>
    by_cases hk : kv.1 = k
    · simp [setA, getA, hk, h']
    · by_cases hk' : kv.1 = k'
      · simp [setA, getA, hk, hk', h]
      · simp [setA, getA, hk, hk', ih]

theorem getA_eraseA_self {α β : Type} [DecidableEq α] (m : List (α × β)) (k : α) :
    getA (eraseA m k) k = none := by
  induction m with
  | nil => rfl
  | cons kv rest ih =>
    obtain ⟨a, b⟩ := kv
    by_cases h : a = k
    · simpa [eraseA, h] using ih
    · simpa [eraseA, getA, h] using ih

theorem getA_eraseA_ne {α β : Type} [DecidableEq α] (m : List (α × β)) (k k' : α)
    (h : k' ≠ k) : getA (eraseA m k) k' = getA m k' := by
  induction m with
  | nil => rfl
  | cons kv rest ih =>
    obtain ⟨a, b⟩ := kv
    by_cases hk : a = k
    · simpa [eraseA, getA, hk, Ne.symm h] using ih
    · by_cases hk' : a = k'
      · simp [eraseA, getA, hk, hk', h]
      · simpa [eraseA, getA, hk, hk'] using ih

theorem find?_replaceFirst (ps : List Player) (pid : PId) (p q : Player)
    (h : ps.find? (fun x => decide (x.id = pid)) = some p) (hq : q.id = pid) :
    (replaceFirst ps pid q).find? (fun x => decide (x.id = pid)) = some q := by
  induction ps with
  | nil => simp [List.find?] at h
  | cons r rest ih =>
    by_cases hr : r.id = pid
    · rw [replaceFirst, if_pos hr]
      exact List.find?_cons_of_pos _ (by simp [hq])
    · rw [List.find?_cons_of_neg _ (by simp [hr])] at h
      rw [replaceFirst, if_neg hr]
      rw [List.find?_cons_of_neg _ (by simp [hr])]
      exact ih h

theorem mem_replaceFirst (ps : List Player) (pid : PId) (p q : Player)
    (h : ps.find? (fun x => decide (x.id = pid)) = some p) :
    q ∈ replaceFirst ps pid q := by
  induction ps with
  | nil => simp [List.find?] at h
  | cons r rest ih =>
    by_cases hr : r.id = pid
    · rw [replaceFirst, if_pos hr]
      simp
    · rw [List.find?_cons_of_neg _ (by simp [hr])] at h
      rw [replaceFirst, if_neg hr]
      simp [ih h]

theorem getPlayer_replaceFirst {l : Lobby} {pid : PId} {p : Player} (q : Player)
    (h : getPlayer l pid = some p) (hq : q.id = pid) {m : Lobby}
    (hm : m.players = replaceFirst l.players pid q) :
    getPlayer m pid = some q := by
  unfold getPlayer at h ⊢
  rw [hm]
  exact find?_replaceFirst l.players pid p q h hq

/-- The integer streak-bonus computation agrees with rounding the exact
rational product half-up, tier by tier. -/
theorem roundedStreakBonus_eq (sp sc : Nat) :
    (roundedStreakBonus sp sc : Int) = jsRound ((sp : ℚ) * getStreakMultiplier sc) := by
  unfold roundedStreakBonus streakMultiplier20 getStreakMultiplier jsRound
  split_ifs
  · have h : (sp : ℚ) * 0.5 + 1/2 = ((sp * 10 + 10 : ℕ) : ℚ) / ((20 : ℕ) : ℚ) := by
      push_cast; ring
    rw [h, Rat.floor_natCast_div_natCast]
    exact (Int.ofNat_div _ _).symm
  · have h : (sp : ℚ) * 0.35 + 1/2 = ((sp * 7 + 10 : ℕ) : ℚ) / ((20 : ℕ) : ℚ) := by
      push_cast; ring
    rw [h, Rat.floor_natCast_div_natCast]
    exact (Int.ofNat_div _ _).symm
  · have h : (sp : ℚ) * 0.2 + 1/2 = ((sp * 4 + 10 : ℕ) : ℚ) / ((20 : ℕ) : ℚ) := by
      push_cast; ring
    rw [h, Rat.floor_natCast_div_natCast]
    exact (Int.ofNat_div _ _).symm
  · have h : (sp : ℚ) * 0.1 + 1/2 = ((sp * 2 + 10 : ℕ) : ℚ) / ((20 : ℕ) : ℚ) := by
      push_cast; ring
    rw [h, Rat.floor_natCast_div_natCast]
    exact (Int.ofNat_div _ _).symm
  · have h : (sp : ℚ) * 0 + 1/2 = ((sp * 0 + 10 : ℕ) : ℚ) / ((20 : ℕ) : ℚ) := by
      push_cast; ring
    rw [h, Rat.floor_natCast_div_natCast]
    exact (Int.ofNat_div _ _).symm

/- Multiset characterization of canFormWord. -/

theorem buildCounts_fold (ls : List Char) :
    ∀ (f : Char → Nat) (c : Char),
      (ls.foldl (fun counts letter =>
        Function.update counts letter.toLower (counts letter.toLower + 1)) f) c
        = f c + (ls.map Char.toLower).count c := by
  induction ls with
  | nil => intro f c; simp
  | cons a ls ih =>
    intro f c
    rw [List.foldl_cons, ih]
    by_cases hc : c = a.toLower
    · subst hc
      simp [Function.update, List.count_cons]
      omega
    · simp [Function.update, hc, List.count_cons, Ne.symm hc]

theorem buildCounts_apply (lettersInput : List Char) (c : Char) :
    buildCounts lettersInput c = (lettersInput.map Char.toLower).count c := by
  have := buildCounts_fold lettersInput (fun _ => 0) c
  simpa [buildCounts] using this

theorem canFormAux_iff (w : List Char) :
    ∀ counts : Char → Nat, canFormAux counts w = true ↔ ∀ c, w.count c ≤ counts c := by
  induction w with
  | nil => intro counts; simp [canFormAux]
  | cons c rest ih =>
    intro counts
    by_cases h0 : counts c = 0
    · simp only [canFormAux]
      rw [if_pos h0]
      constructor
      · intro h; exact absurd h (by simp)
      · intro hall
        have := hall c
        rw [List.count_cons_self] at this
        omega
    · simp only [canFormAux]
      rw [if_neg h0, ih]
      constructor
      · intro h d
        by_cases hd : d = c
        · subst hd
          have := h d
          rw [Function.update_same] at this
          rw [List.count_cons_self]
          omega
        · have := h d
          rw [Function.update_noteq hd] at this
          rwa [List.count_cons_of_ne hd]
      · intro h d
        by_cases hd : d = c
        · subst hd
          have := h d
          rw [List.count_cons_self] at this
          rw [Function.update_same]
          omega
        · have := h d
          rw [List.count_cons_of_ne hd] at this
          rwa [Function.update_noteq hd]

theorem canFormWord_iff (lettersInput : List Char) (w : Word) :
    canFormWord lettersInput w = true ↔
      ∀ c, w.count c ≤ (lettersInput.map Char.toLower).count c := by
  rw [canFormWord, canFormAux_iff]
  constructor
  · intro h c; rw [← buildCounts_apply]; exact h c
  · intro h c; rw [buildCounts_apply]; exact h c

/- Session builder lemmas. -/

theorem foldl_best_inv (cand : Nat → List Char × List Word) (is : List Nat) :
    ∀ acc : List Char × List Word,
      (acc.2.length ≠ 0 → hasSixLetter acc.2 = true) →
      ((is.foldl (fun acc i =>
          if hasSixLetter (cand i).2 && decide (acc.2.length < (cand i).2.length)
          then cand i else acc) acc).2.length ≠ 0 →
        hasSixLetter (is.foldl (fun acc i =>
          if hasSixLetter (cand i).2 && decide (acc.2.length < (cand i).2.length)
          then cand i else acc) acc).2 = true) := by
  induction is with
  | nil => intro acc hacc; exact hacc
  | cons i is ih =>
    intro acc hacc
    rw [List.foldl_cons]
    by_cases hb : (hasSixLetter (cand i).2 && decide (acc.2.length < (cand i).2.length)) = true
    · rw [if_pos hb]
      exact ih _ (fun _ => ((Bool.and_eq_true _ _).mp hb).1)
    · rw [if_neg hb]
      exact ih _ hacc

theorem bestAttempt_hasSix (cand : Nat → List Char × List Word)
    (h : (bestAttempt cand).2.length ≠ 0) : hasSixLetter (bestAttempt cand).2 = true := by
  exact foldl_best_inv cand (List.range MAX_SESSION_ATTEMPTS) ([], []) (by simp) h

/-- Claim C4 (amended): every session the builder returns contains at
least one word of length 6; the ≥ 30-word guarantee holds on the primary
acceptance path, while the best-attempt fallback and the bounded retry
loop only guarantee the six-letter word. -/
theorem C4_theorem (dict : List Word) (gen : Nat → List Char)
    (shuf : Nat → List Word → List Word) (fuel : Nat) (L : List Char) (ws : List Word)
    (path : BuildPath) (h : buildSession dict gen shuf fuel = some ⟨L, ws, path⟩) :
    hasSixLetter ws = true ∧ (path = BuildPath.primary → TARGET_WORD_MIN ≤ ws.length) := by
  simp only [buildSession] at h
  split at h
  next i h1 =>
    rw [Option.some.injEq] at h
    have hp := List.find?_some h1
    simp only [Bool.and_eq_true, decide_eq_true_eq] at hp
    obtain ⟨h30, hsix⟩ := hp
    injection h with hL hws hpath
    subst hws; subst hpath
    exact ⟨hsix, fun _ => h30⟩
  next h1 =>
    split at h
    next hb =>
      rw [Option.some.injEq] at h
      injection h with hL hws hpath
      subst hws; subst hpath
      refine ⟨bestAttempt_hasSix _ hb, fun hp => ?_⟩
      exact absurd hp (by intro hh; cases hh)
    next hb =>
      split at h
      next j h2 =>
        rw [Option.some.injEq] at h
        have hp := List.find?_some h2
        injection h with hL hws hpath
        subst hws; subst hpath
        exact ⟨hp, fun hp' => absurd hp' (by intro hh; cases hh)⟩
      next h2 =>
        split at h
        next j h3 =>
          rw [Option.some.injEq] at h
          have hp := List.find?_some h3
          injection h with hL hws hpath
          subst hws; subst hpath
          exact ⟨hp, fun hp' => absurd hp' (by intro hh; cases hh)⟩
        next h3 => exact absurd h (by simp)

/-- Claim C4, counterexample to the claim as stated: with a dictionary
holding the single six-letter word `planet` and letter draws spelling it,
the builder terminates on the best-attempt fallback path — not the
unbounded last-resort loop — with only 1 < 30 session words. -/
theorem C4_counterexample :
    buildSession [wplanet] (fun _ => wplanet) (fun _ ws => ws) 0
      = some ⟨wplanet, [wplanet], BuildPath.bestFallback⟩ ∧
    BuildPath.bestFallback ≠ BuildPath.forced ∧
    ¬ TARGET_WORD_MIN ≤ ([wplanet] : List Word).length := by
  refine ⟨by decide, by decide, by decide⟩

/-- Witness for `C4_theorem` at a session accepted on the primary path. -/
theorem C4_witness :
    hasSixLetter dictA = true ∧
      (BuildPath.primary = BuildPath.primary → TARGET_WORD_MIN ≤ dictA.length) :=
  C4_theorem dictA (fun _ => gsixA) (fun _ ws => ws) 0 gsixA dictA BuildPath.primary (by decide)

/-- Claim C2: the invalid-word penalty subtracts 50, clamps the score at 0
(the result is never negative, for any starting score), and zeroes all
three streak fields. -/
theorem C2_theorem (p : Player) :
    (applyInvalidPenalty p).score = max 0 (p.score - (INVALID_WORD_PENALTY : Int)) ∧
    0 ≤ (applyInvalidPenalty p).score ∧
    (applyInvalidPenalty p).streakCount = 0 ∧
    (applyInvalidPenalty p).streakPoints = 0 ∧
    (applyInvalidPenalty p).streakBonusApplied = 0 :=
  ⟨rfl, le_max_left _ _, rfl, rfl, rfl⟩

/-- Claim C9 (amended): the empty word is formable from any letter list
(`canFormWord` returns `true` on it, not `false` as claimed); the empty
word is never a dictionary word; and for every word, formability holds
exactly when the word's letter multiset is contained in the multiset of
the lowercased letters (the letters are compared case-insensitively, the
word's own characters are matched as given). -/
theorem C9_theorem (lettersInput : List Char) (rawWords : List Word) (w : Word) :
    canFormWord lettersInput [] = true ∧
    isWord rawWords [] = false ∧
    (canFormWord lettersInput w = true ↔
      ∀ c, w.count c ≤ (lettersInput.map Char.toLower).count c) := by
  refine ⟨rfl, ?_, canFormWord_iff lettersInput w⟩
  simp only [isWord, decide_eq_false_iff_not, dictionaryOf, List.mem_filter]
  rintro ⟨-, hlen⟩
  simp [MIN_WORD_LENGTH, MAX_WORD_LENGTH] at hlen

/-- Claim C9, counterexample to the claim as stated: `canFormWord` on the
empty word returns `true` for the empty letter list, not `false`. -/
theorem C9_counterexample :
    canFormWord [] [] = true ∧ ¬ canFormWord [] [] = false := by
  refine ⟨rfl, by decide⟩

/- submitWord branch lemmas. -/

/-- The duplicated second all-hidden block of `finishSubmit` is a no-op:
the first block already recorded the award, so the accepting tail
normalizes to a single conditional bonus grant. -/
theorem finishSubmit_eq (l : Lobby) (pid : PId) (player : Player) (normalized : Word)
    (idx : Option Nat) (revealedAfter : List Nat) (playerWords : List Word) :
    finishSubmit l pid player normalized idx revealedAfter playerWords =
      (let wordPoints := normalized.length * POINTS_PER_LETTER
          + getLengthBonus normalized.length
          + (if idx.isSome then getHiddenBonus normalized.length else 0);
       let grant := idx.isSome && decide (revealedAfter.length = l.sessionWords.length)
          && !(decide (pid ∈ l.hiddenBonusAwarded));
       let p1 := applyValidScore player wordPoints;
       let p2 := if grant then { p1 with score := p1.score + (ALL_HIDDEN_BONUS : Int) } else p1;
       (SubmitResult.ok (normalized.map Char.toUpper) (p2.score - player.score),
        { l with
            players := replaceFirst l.players pid p2,
            revealedByPlayer :=
              match idx with
              | some _ => setA l.revealedByPlayer pid revealedAfter
              | none => l.revealedByPlayer,
            submittedWords := setA l.submittedWords pid (addS playerWords normalized),
            hiddenBonusAwarded :=
              if grant then addS l.hiddenBonusAwarded pid else l.hiddenBonusAwarded })) := by
  simp only [finishSubmit]
  by_cases hg : (idx.isSome && decide (revealedAfter.length = l.sessionWords.length)
      && !(decide (pid ∈ l.hiddenBonusAwarded))) = true
  · have h2 : (idx.isSome && decide (revealedAfter.length = l.sessionWords.length)
        && !(decide (pid ∈ addS l.hiddenBonusAwarded pid))) = false := by
      simp [mem_addS_self]
    simp [hg, h2]
  · simp [hg]

/-- Successful-submission characterization, hidden-word case. -/
theorem submitWord_success_some (dict : List Word) (l : Lobby) (pid : PId) (raw : Word)
    (p : Player) (i : Nat)
    (hAct : l.status = Status.active)
    (hP : getPlayer l pid = some p)
    (hLen : ¬ (normalize raw).length < MIN_WORD_LENGTH)
    (hDict : normalize raw ∈ dict)
    (hForm : canFormWord l.letters (normalize raw) = true)
    (hSub : ¬ normalize raw ∈ (getA l.submittedWords pid).getD [])
    (hIdx : getA l.wordIndex (normalize raw) = some i)
    (hRev : ¬ i ∈ (getA l.revealedByPlayer pid).getD []) :
    submitWord dict l pid raw =
      finishSubmit l pid p (normalize raw) (some i)
        (addS ((getA l.revealedByPlayer pid).getD []) i)
        ((getA l.submittedWords pid).getD []) := by
  simp only [submitWord, hP]
  rw [if_neg (by simp [hAct])]
  rw [if_neg hLen]
  rw [if_neg (not_not_intro hDict)]
  rw [if_neg (not_not_intro hForm)]
  rw [if_neg hSub]
  simp only [hIdx]
  rw [if_neg hRev]

/-- Successful-submission characterization, non-hidden case. -/
theorem submitWord_success_none (dict : List Word) (l : Lobby) (pid : PId) (raw : Word)
    (p : Player)
    (hAct : l.status = Status.active)
    (hP : getPlayer l pid = some p)
    (hLen : ¬ (normalize raw).length < MIN_WORD_LENGTH)
    (hDict : normalize raw ∈ dict)
    (hForm : canFormWord l.letters (normalize raw) = true)
    (hSub : ¬ normalize raw ∈ (getA l.submittedWords pid).getD [])
    (hIdx : getA l.wordIndex (normalize raw) = none) :
    submitWord dict l pid raw =
      finishSubmit l pid p (normalize raw) none
        ((getA l.revealedByPlayer pid).getD [])
        ((getA l.submittedWords pid).getD []) := by
  simp only [submitWord, hP]
  rw [if_neg (by simp [hAct])]
  rw [if_neg hLen]
  rw [if_neg (not_not_intro hDict)]
  rw [if_neg (not_not_intro hForm)]
  rw [if_neg hSub]
  simp only [hIdx]

/-- `finishSubmit` when the all-hidden bonus fires. -/
theorem finishSubmit_grant (l : Lobby) (pid : PId) (player : Player) (normalized : Word)
    (idx : Option Nat) (revealedAfter : List Nat) (playerWords : List Word)
    (hg : (idx.isSome && decide (revealedAfter.length = l.sessionWords.length)
      && !(decide (pid ∈ l.hiddenBonusAwarded))) = true) :
    finishSubmit l pid player normalized idx revealedAfter playerWords =
      (SubmitResult.ok (normalized.map Char.toUpper)
        ((applyValidScore player (normalized.length * POINTS_PER_LETTER
            + getLengthBonus normalized.length
            + (if idx.isSome then getHiddenBonus normalized.length else 0))).score
          + (ALL_HIDDEN_BONUS : Int) - player.score),
       { l with
           players := replaceFirst l.players pid
             { applyValidScore player (normalized.length * POINTS_PER_LETTER
                  + getLengthBonus normalized.length
                  + (if idx.isSome then getHiddenBonus normalized.length else 0)) with
               score := (applyValidScore player (normalized.length * POINTS_PER_LETTER
                  + getLengthBonus normalized.length
                  + (if idx.isSome then getHiddenBonus normalized.length else 0))).score
                 + (ALL_HIDDEN_BONUS : Int) },
           revealedByPlayer :=
             match idx with
             | some _ => setA l.revealedByPlayer pid revealedAfter
             | none => l.revealedByPlayer,
           submittedWords := setA l.submittedWords pid (addS playerWords normalized),
           hiddenBonusAwarded := addS l.hiddenBonusAwarded pid }) := by
  cases idx with
  | none => simp at hg
  | some j =>
    simp only [finishSubmit_eq]
    simp only [if_pos hg]

/-- `finishSubmit` when the all-hidden bonus does not fire. -/
theorem finishSubmit_nogrant (l : Lobby) (pid : PId) (player : Player) (normalized : Word)
    (idx : Option Nat) (revealedAfter : List Nat) (playerWords : List Word)
    (hg : ¬ (idx.isSome && decide (revealedAfter.length = l.sessionWords.length)
      && !(decide (pid ∈ l.hiddenBonusAwarded))) = true) :
    finishSubmit l pid player normalized idx revealedAfter playerWords =
      (SubmitResult.ok (normalized.map Char.toUpper)
        ((applyValidScore player (normalized.length * POINTS_PER_LETTER
            + getLengthBonus normalized.length
            + (if idx.isSome then getHiddenBonus normalized.length else 0))).score
          - player.score),
       { l with
           players := replaceFirst l.players pid
             (applyValidScore player (normalized.length * POINTS_PER_LETTER
                + getLengthBonus normalized.length
                + (if idx.isSome then getHiddenBonus normalized.length else 0))),
           revealedByPlayer :=
             match idx with
             | some _ => setA l.revealedByPlayer pid revealedAfter
             | none => l.revealedByPlayer,
           submittedWords := setA l.submittedWords pid (addS playerWords normalized),
           hiddenBonusAwarded := l.hiddenBonusAwarded }) := by
  cases idx with
  | none =>
    simp only [finishSubmit_eq]
    simp only [if_neg hg]
  | some j =>
    simp only [finishSubmit_eq]
    simp only [if_neg hg]

theorem finish_awarded_mono (l : Lobby) (pid : PId) (player : Player) (normalized : Word)
    (idx : Option Nat) (revealedAfter : List Nat) (playerWords : List Word) (a : PId)
    (h : a ∈ l.hiddenBonusAwarded) :
    a ∈ ((finishSubmit l pid player normalized idx revealedAfter playerWords).2).hiddenBonusAwarded := by
  rw [finishSubmit_eq]
  simp only
  split
  · exact mem_addS_of_mem _ h
  · exact h

theorem submit_awarded_mono (dict : List Word) (l : Lobby) (q : PId) (raw : Word) (a : PId)
    (h : a ∈ l.hiddenBonusAwarded) :
    a ∈ ((submitWord dict l q raw).2).hiddenBonusAwarded := by
  simp only [submitWord]
  split
  · exact h
  · split
    · exact h
    · split
      · exact h
      · split
        · exact h
        · split
          · exact h
          · split
            · exact h
            · split
              · split
                · exact h
                · exact finish_awarded_mono _ _ _ _ _ _ _ _ h
              · exact finish_awarded_mono _ _ _ _ _ _ _ _ h

theorem bot_awarded_mono (l : Lobby) (q : PId) (w : Word) (a : PId)
    (h : a ∈ l.hiddenBonusAwarded) :
    a ∈ (botApplyPick l q w).hiddenBonusAwarded := by
  simp only [botApplyPick]
  split
  · exact h
  · split
    · exact h
    · simp only
      split
      · exact mem_addS_of_mem _ h
      · exact h

theorem gstep_awarded_mono (dict : List Word) (l : Lobby) (s : GStep) (a : PId)
    (h : a ∈ l.hiddenBonusAwarded) : a ∈ (gstep dict l s).hiddenBonusAwarded := by
  cases s with
  | human pid w => exact submit_awarded_mono dict l pid w a h
  | bot pid w => exact bot_awarded_mono l pid w a h

theorem bonusGrantSteps_of_mem (dict : List Word) (p : PId) :
    ∀ (subs : List GStep) (l : Lobby), p ∈ l.hiddenBonusAwarded →
      bonusGrantSteps dict p l subs = 0 := by
  intro subs
  induction subs with
  | nil => intro l _; rfl
  | cons s rest ih =>
    intro l h
    rw [bonusGrantSteps]
    rw [if_neg (fun hc => hc.1 h)]
    rw [ih _ (gstep_awarded_mono dict l s p h)]

theorem bonusGrantSteps_le_one (dict : List Word) (p : PId) :
    ∀ (subs : List GStep) (l : Lobby), bonusGrantSteps dict p l subs ≤ 1 := by
  intro subs
  induction subs with
  | nil => intro l; simp [bonusGrantSteps]
  | cons s rest ih =>
    intro l
    rw [bonusGrantSteps]
    by_cases hc : p ∉ l.hiddenBonusAwarded ∧ p ∈ (gstep dict l s).hiddenBonusAwarded
    · rw [if_pos hc, bonusGrantSteps_of_mem dict p rest _ hc.2]
    · rw [if_neg hc]
      simpa using ih _

theorem getPlayer_id (l : Lobby) (pid : PId) (p : Player)
    (h : getPlayer l pid = some p) : p.id = pid := by
  unfold getPlayer at h
  have := List.find?_some h
  simpa using this

/-- The self-duplicate branch of `submitWord`: an already-scored word is
answered with a pure error and the lobby is returned unchanged. -/
theorem submitWord_already (dict : List Word) (l : Lobby) (pid : PId) (raw : Word)
    (hAct : l.status = Status.active)
    (hP : ∃ q, getPlayer l pid = some q)
    (hLen : ¬ (normalize raw).length < MIN_WORD_LENGTH)
    (hDict : normalize raw ∈ dict)
    (hForm : canFormWord l.letters (normalize raw) = true)
    (hSub : normalize raw ∈ (getA l.submittedWords pid).getD []) :
    submitWord dict l pid raw =
      (SubmitResult.errorOnly "You already submitted this word.", l) := by
  obtain ⟨q, hq⟩ := hP
  simp only [submitWord, hq]
  rw [if_neg (by simp [hAct])]
  rw [if_neg hLen]
  rw [if_neg (not_not_intro hDict)]
  rw [if_neg (not_not_intro hForm)]
  rw [if_pos hSub]

/-- Claim C3: a valid submission followed by a resubmission of the same
word: the second call answers the non-penalizing "already submitted"
error and returns the lobby state of the first call unchanged (score,
streaks, revealed set and ledger included). -/
theorem C3_theorem (dict : List Word) (l : Lobby) (pid : PId) (raw : Word) (p : Player)
    (hAct : l.status = Status.active)
    (hP : getPlayer l pid = some p)
    (hLen : ¬ (normalize raw).length < MIN_WORD_LENGTH)
    (hDict : normalize raw ∈ dict)
    (hForm : canFormWord l.letters (normalize raw) = true)
    (hSub : ¬ normalize raw ∈ (getA l.submittedWords pid).getD [])
    (hRev : ∀ i, getA l.wordIndex (normalize raw) = some i →
        ¬ i ∈ (getA l.revealedByPlayer pid).getD []) :
    submitWord dict (submitWord dict l pid raw).2 pid raw =
      (SubmitResult.errorOnly "You already submitted this word.",
       (submitWord dict l pid raw).2) := by
  have hid : p.id = pid := getPlayer_id l pid p hP
  cases hIdx : getA l.wordIndex (normalize raw) with
  | some i =>
    have hEq := submitWord_success_some dict l pid raw p i hAct hP hLen hDict hForm hSub
      hIdx (hRev i hIdx)
    simp only [hEq, finishSubmit_eq]
    refine submitWord_already dict _ pid raw hAct ⟨_, getPlayer_replaceFirst _ hP ?_ rfl⟩
      hLen hDict hForm ?_
    · split
      · simp [applyValidScore, hid]
      · simp [applyValidScore, hid]
    · rw [getA_setA_self]
      exact mem_addS_self _ _
  | none =>
    have hEq := submitWord_success_none dict l pid raw p hAct hP hLen hDict hForm hSub hIdx
    simp only [hEq, finishSubmit_eq]
    refine submitWord_already dict _ pid raw hAct ⟨_, getPlayer_replaceFirst _ hP ?_ rfl⟩
      hLen hDict hForm ?_
    · split
      · simp [applyValidScore, hid]
      · simp [applyValidScore, hid]
    · rw [getA_setA_self]
      exact mem_addS_self _ _

/-- Claim C1 (amended): on every valid submission the score becomes
`score_before + length*100 + lengthBonus + (hiddenBonus when this is the
first personal reveal of the word's index) + streakDelta`, where
`streakDelta` is the rounded tier multiplier on cumulative streak points
minus the previously applied streak bonus — plus the flat all-hidden
+3000 exactly when this submission completes the player's reveal of the
whole session list for a not-yet-awarded player.  The first-reveal fact
itself is recorded: the submitted hidden index enters the player's
revealed set. -/
theorem C1_theorem (dict : List Word) (l : Lobby) (pid : PId) (raw : Word) (p : Player)
    (hAct : l.status = Status.active)
    (hP : getPlayer l pid = some p)
    (hLen : ¬ (normalize raw).length < MIN_WORD_LENGTH)
    (hDict : normalize raw ∈ dict)
    (hForm : canFormWord l.letters (normalize raw) = true)
    (hSub : ¬ normalize raw ∈ (getA l.submittedWords pid).getD [])
    (hRev : ∀ i, getA l.wordIndex (normalize raw) = some i →
        ¬ i ∈ (getA l.revealedByPlayer pid).getD []) :
    ((getPlayer (submitWord dict l pid raw).2 pid).map Player.score =
      some (p.score
        + ((normalize raw).length * POINTS_PER_LETTER
            + getLengthBonus (normalize raw).length
            + (if (getA l.wordIndex (normalize raw)).isSome
               then getHiddenBonus (normalize raw).length else 0) : Nat)
        + specStreakDelta p
            ((normalize raw).length * POINTS_PER_LETTER
              + getLengthBonus (normalize raw).length
              + (if (getA l.wordIndex (normalize raw)).isSome
                 then getHiddenBonus (normalize raw).length else 0))
        + (if (getA l.wordIndex (normalize raw)).isSome = true
              ∧ ((getA ((submitWord dict l pid raw).2).revealedByPlayer pid).getD []).length
                  = l.sessionWords.length
              ∧ ¬ pid ∈ l.hiddenBonusAwarded
           then (ALL_HIDDEN_BONUS : Int) else 0)))
    ∧ (∀ i, getA l.wordIndex (normalize raw) = some i →
        i ∈ (getA ((submitWord dict l pid raw).2).revealedByPlayer pid).getD []) := by
  have hid : p.id = pid := getPlayer_id l pid p hP
  cases hIdx : getA l.wordIndex (normalize raw) with
  | some i =>
    have hEq := submitWord_success_some dict l pid raw p i hAct hP hLen hDict hForm hSub
      hIdx (hRev i hIdx)
    by_cases hfull : (addS ((getA l.revealedByPlayer pid).getD []) i).length
        = l.sessionWords.length
    · by_cases hawd : pid ∈ l.hiddenBonusAwarded
      · rw [hEq, finishSubmit_nogrant _ _ _ _ _ _ _ (by simp [hawd])]
        rw [getPlayer_replaceFirst _ hP (by simp [applyValidScore, hid]) rfl]
        refine ⟨?_, ?_⟩
        · dsimp only
          rw [getA_setA_self, Option.getD_some]
          rw [if_neg (fun hc : (some i : Option Nat).isSome = true
              ∧ (addS ((getA l.revealedByPlayer pid).getD []) i).length = l.sessionWords.length
              ∧ ¬ pid ∈ l.hiddenBonusAwarded => hc.2.2 hawd)]
          simp [applyValidScore, specStreakDelta]
          rw [roundedStreakBonus_eq]
          congr 1
          push_cast
          ring
        · intro j hj
          cases hj
          dsimp only
          rw [getA_setA_self]
          exact mem_addS_self _ _
      · rw [hEq, finishSubmit_grant _ _ _ _ _ _ _ (by simp [hfull, hawd])]
        rw [getPlayer_replaceFirst _ hP (by simp [applyValidScore, hid]) rfl]
        refine ⟨?_, ?_⟩
        · dsimp only
          rw [getA_setA_self, Option.getD_some]
          rw [if_pos (⟨rfl, hfull, hawd⟩ : (some i : Option Nat).isSome = true
              ∧ (addS ((getA l.revealedByPlayer pid).getD []) i).length = l.sessionWords.length
              ∧ ¬ pid ∈ l.hiddenBonusAwarded)]
          simp [applyValidScore, specStreakDelta]
          rw [roundedStreakBonus_eq]
          congr 1
          push_cast
          ring
        · intro j hj
          cases hj
          dsimp only
          rw [getA_setA_self]
          exact mem_addS_self _ _
    · rw [hEq, finishSubmit_nogrant _ _ _ _ _ _ _ (by simp [hfull])]
      rw [getPlayer_replaceFirst _ hP (by simp [applyValidScore, hid]) rfl]
      refine ⟨?_, ?_⟩
      · dsimp only
        rw [getA_setA_self, Option.getD_some]
        rw [if_neg (fun hc : (some i : Option Nat).isSome = true
            ∧ (addS ((getA l.revealedByPlayer pid).getD []) i).length = l.sessionWords.length
            ∧ ¬ pid ∈ l.hiddenBonusAwarded => hfull hc.2.1)]
        simp [applyValidScore, specStreakDelta]
        rw [roundedStreakBonus_eq]
        congr 1
        push_cast
        ring
      · intro j hj
        cases hj
        dsimp only
        rw [getA_setA_self]
        exact mem_addS_self _ _
  | none =>
    have hEq := submitWord_success_none dict l pid raw p hAct hP hLen hDict hForm hSub hIdx
    rw [hEq, finishSubmit_nogrant _ _ _ _ _ _ _ (by simp)]
    rw [getPlayer_replaceFirst _ hP (by simp [applyValidScore, hid]) rfl]
    refine ⟨?_, ?_⟩
    · dsimp only
      rw [if_neg (fun hc : (none : Option Nat).isSome = true
          ∧ ((getA l.revealedByPlayer pid).getD []).length = l.sessionWords.length
          ∧ ¬ pid ∈ l.hiddenBonusAwarded => absurd hc.1 (by simp))]
      simp [applyValidScore, specStreakDelta]
      rw [roundedStreakBonus_eq]
      congr 1
      push_cast
      ring
    · intro j hj
      cases hj

/-- Claim C1, counterexample to the claim as stated: ALICE submits `cat`,
the only session word, with streak 0; the formula of the claim gives
450 = 300 + 0 + 150 + 0, but the score after the submission is 3450
because the all-clear +3000 lands on the same submission. -/
theorem C1_counterexample :
    (getPlayer (submitWord dictW L1 1 wcat).2 1).map Player.score = some 3450 ∧
    ¬ ((3450 : Int) = pAlice.score
        + ((wcat.length * POINTS_PER_LETTER + getLengthBonus wcat.length
            + getHiddenBonus wcat.length : Nat) : Int)
        + specStreakDelta pAlice (wcat.length * POINTS_PER_LETTER
            + getLengthBonus wcat.length + getHiddenBonus wcat.length)) := by
  refine ⟨by decide, ?_⟩
  simp only [specStreakDelta, ← roundedStreakBonus_eq]
  decide

/-- Witness for `C1_theorem` at ALICE submitting `cat` in `L1`. -/
theorem C1_witness :
    ((getPlayer (submitWord dictW L1 1 wcat).2 1).map Player.score =
      some (pAlice.score
        + ((normalize wcat).length * POINTS_PER_LETTER
            + getLengthBonus (normalize wcat).length
            + (if (getA L1.wordIndex (normalize wcat)).isSome
               then getHiddenBonus (normalize wcat).length else 0) : Nat)
        + specStreakDelta pAlice
            ((normalize wcat).length * POINTS_PER_LETTER
              + getLengthBonus (normalize wcat).length
              + (if (getA L1.wordIndex (normalize wcat)).isSome
                 then getHiddenBonus (normalize wcat).length else 0))
        + (if (getA L1.wordIndex (normalize wcat)).isSome = true
              ∧ ((getA ((submitWord dictW L1 1 wcat).2).revealedByPlayer 1).getD []).length
                  = L1.sessionWords.length
              ∧ ¬ (1 : PId) ∈ L1.hiddenBonusAwarded
           then (ALL_HIDDEN_BONUS : Int) else 0)))
    ∧ (∀ i, getA L1.wordIndex (normalize wcat) = some i →
        i ∈ (getA ((submitWord dictW L1 1 wcat).2).revealedByPlayer 1).getD []) :=
  C1_theorem dictW L1 1 wcat pAlice (by decide) (by decide) (by decide) (by decide)
    (by decide) (by decide) (fun i _ => by simp [L1, getA])

/-- Witness for `C3_theorem` at ALICE submitting `care` twice in `L1`. -/
theorem C3_witness :
    submitWord dictW (submitWord dictW L1 1 wcare).2 1 wcare =
      (SubmitResult.errorOnly "You already submitted this word.",
       (submitWord dictW L1 1 wcare).2) :=
  C3_theorem dictW L1 1 wcare pAlice (by decide) (by decide) (by decide) (by decide)
    (by decide) (by decide) (fun i _ => by simp [L1, getA])

/-- Claim C5: the flat +3000 all-hidden bonus is granted to a player at
most once per round (over any sequence of human and bot submissions), a
valid submission leaves the player awarded exactly when they were already
awarded or the submission is a hidden word completing the full revealed
set, and the submission's score contains the +3000 term exactly once,
precisely when the revealed set reaches the full session word count for a
not-yet-awarded player — the duplicated second check block never fires. -/
theorem C5_theorem (dict : List Word) (l : Lobby) (pid : PId) (raw : Word) (p : Player)
    (subs : List GStep)
    (hAct : l.status = Status.active)
    (hP : getPlayer l pid = some p)
    (hLen : ¬ (normalize raw).length < MIN_WORD_LENGTH)
    (hDict : normalize raw ∈ dict)
    (hForm : canFormWord l.letters (normalize raw) = true)
    (hSub : ¬ normalize raw ∈ (getA l.submittedWords pid).getD [])
    (hRev : ∀ i, getA l.wordIndex (normalize raw) = some i →
        ¬ i ∈ (getA l.revealedByPlayer pid).getD []) :
    bonusGrantSteps dict pid l subs ≤ 1
    ∧ (pid ∈ ((submitWord dict l pid raw).2).hiddenBonusAwarded ↔
        (pid ∈ l.hiddenBonusAwarded ∨
          ((getA l.wordIndex (normalize raw)).isSome = true
            ∧ ((getA ((submitWord dict l pid raw).2).revealedByPlayer pid).getD []).length
                = l.sessionWords.length)))
    ∧ ((getPlayer (submitWord dict l pid raw).2 pid).map Player.score =
        some (p.score
          + ((normalize raw).length * POINTS_PER_LETTER
              + getLengthBonus (normalize raw).length
              + (if (getA l.wordIndex (normalize raw)).isSome
                 then getHiddenBonus (normalize raw).length else 0) : Nat)
          + specStreakDelta p
              ((normalize raw).length * POINTS_PER_LETTER
                + getLengthBonus (normalize raw).length
                + (if (getA l.wordIndex (normalize raw)).isSome
                   then getHiddenBonus (normalize raw).length else 0))
          + (if (getA l.wordIndex (normalize raw)).isSome = true
                ∧ ((getA ((submitWord dict l pid raw).2).revealedByPlayer pid).getD []).length
                    = l.sessionWords.length
                ∧ ¬ pid ∈ l.hiddenBonusAwarded
             then (ALL_HIDDEN_BONUS : Int) else 0))) := by
  have hid : p.id = pid := getPlayer_id l pid p hP
  refine ⟨bonusGrantSteps_le_one dict pid subs l, ?_⟩
  cases hIdx : getA l.wordIndex (normalize raw) with
  | some i =>
    have hEq := submitWord_success_some dict l pid raw p i hAct hP hLen hDict hForm hSub
      hIdx (hRev i hIdx)
    by_cases hfull : (addS ((getA l.revealedByPlayer pid).getD []) i).length
        = l.sessionWords.length
    · by_cases hawd : pid ∈ l.hiddenBonusAwarded
      · rw [hEq, finishSubmit_nogrant _ _ _ _ _ _ _ (by simp [hawd])]
        refine ⟨?_, ?_⟩
        · dsimp only
          rw [getA_setA_self, Option.getD_some]
          simp [hawd]
        · rw [getPlayer_replaceFirst _ hP (by simp [applyValidScore, hid]) rfl]
          dsimp only
          rw [getA_setA_self, Option.getD_some]
          rw [if_neg (fun hc : (some i : Option Nat).isSome = true
              ∧ (addS ((getA l.revealedByPlayer pid).getD []) i).length = l.sessionWords.length
              ∧ ¬ pid ∈ l.hiddenBonusAwarded => hc.2.2 hawd)]
          simp [applyValidScore, specStreakDelta]
          rw [roundedStreakBonus_eq]
          congr 1
          push_cast
          ring
      · rw [hEq, finishSubmit_grant _ _ _ _ _ _ _ (by simp [hfull, hawd])]
        refine ⟨?_, ?_⟩
        · dsimp only
          rw [getA_setA_self, Option.getD_some]
          simp [mem_addS_self, hfull]
        · rw [getPlayer_replaceFirst _ hP (by simp [applyValidScore, hid]) rfl]
          dsimp only
          rw [getA_setA_self, Option.getD_some]
          rw [if_pos (⟨rfl, hfull, hawd⟩ : (some i : Option Nat).isSome = true
              ∧ (addS ((getA l.revealedByPlayer pid).getD []) i).length = l.sessionWords.length
              ∧ ¬ pid ∈ l.hiddenBonusAwarded)]
          simp [applyValidScore, specStreakDelta]
          rw [roundedStreakBonus_eq]
          congr 1
          push_cast
          ring
    · rw [hEq, finishSubmit_nogrant _ _ _ _ _ _ _ (by simp [hfull])]
      refine ⟨?_, ?_⟩
      · dsimp only
        rw [getA_setA_self, Option.getD_some]
        simp [hfull]
      · rw [getPlayer_replaceFirst _ hP (by simp [applyValidScore, hid]) rfl]
        dsimp only
        rw [getA_setA_self, Option.getD_some]
        rw [if_neg (fun hc : (some i : Option Nat).isSome = true
            ∧ (addS ((getA l.revealedByPlayer pid).getD []) i).length = l.sessionWords.length
            ∧ ¬ pid ∈ l.hiddenBonusAwarded => hfull hc.2.1)]
        simp [applyValidScore, specStreakDelta]
        rw [roundedStreakBonus_eq]
        congr 1
        push_cast
        ring
  | none =>
    have hEq := submitWord_success_none dict l pid raw p hAct hP hLen hDict hForm hSub hIdx
    rw [hEq, finishSubmit_nogrant _ _ _ _ _ _ _ (by simp)]
    refine ⟨?_, ?_⟩
    · simp
    · rw [getPlayer_replaceFirst _ hP (by simp [applyValidScore, hid]) rfl]
      dsimp only
      rw [if_neg (fun hc : (none : Option Nat).isSome = true
          ∧ ((getA l.revealedByPlayer pid).getD []).length = l.sessionWords.length
          ∧ ¬ pid ∈ l.hiddenBonusAwarded => absurd hc.1 (by simp))]
      simp [applyValidScore, specStreakDelta]
      rw [roundedStreakBonus_eq]
      congr 1
      push_cast
      ring

/-- Witness for `C5_theorem`: ALICE completes the one-word session. -/
theorem C5_witness :
    bonusGrantSteps dictW 1 L1 [GStep.human 1 wcat, GStep.human 1 wcare] ≤ 1
    ∧ ((1 : PId) ∈ ((submitWord dictW L1 1 wcat).2).hiddenBonusAwarded ↔
        ((1 : PId) ∈ L1.hiddenBonusAwarded ∨
          ((getA L1.wordIndex (normalize wcat)).isSome = true
            ∧ ((getA ((submitWord dictW L1 1 wcat).2).revealedByPlayer 1).getD []).length
                = L1.sessionWords.length)))
    ∧ ((getPlayer (submitWord dictW L1 1 wcat).2 1).map Player.score =
        some (pAlice.score
          + ((normalize wcat).length * POINTS_PER_LETTER
              + getLengthBonus (normalize wcat).length
              + (if (getA L1.wordIndex (normalize wcat)).isSome
                 then getHiddenBonus (normalize wcat).length else 0) : Nat)
          + specStreakDelta pAlice
              ((normalize wcat).length * POINTS_PER_LETTER
                + getLengthBonus (normalize wcat).length
                + (if (getA L1.wordIndex (normalize wcat)).isSome
                   then getHiddenBonus (normalize wcat).length else 0))
          + (if (getA L1.wordIndex (normalize wcat)).isSome = true
                ∧ ((getA ((submitWord dictW L1 1 wcat).2).revealedByPlayer 1).getD []).length
                    = L1.sessionWords.length
                ∧ ¬ (1 : PId) ∈ L1.hiddenBonusAwarded
             then (ALL_HIDDEN_BONUS : Int) else 0))) :=
  C5_theorem dictW L1 1 wcat pAlice [GStep.human 1 wcat, GStep.human 1 wcare]
    (by decide) (by decide) (by decide) (by decide) (by decide) (by decide)
    (fun i _ => by simp [L1, getA])

/-- Claim C7: once a bot has picked its word (already normalized, a
dictionary word of length ≥ 3 formable from the letters, not in the bot's
own ledger, and — as the picking loop guarantees on reachable states —
not an index the bot already revealed), the state change of
`botSubmitWord`'s submission tail equals the state change of the same
player submitting the same word through the human `submitWord` handler,
and the human handler accepts the word. -/
theorem C7_theorem (dict : List Word) (l : Lobby) (pid : PId) (w : Word) (bot : Player)
    (hAct : l.status = Status.active)
    (hP : getPlayer l pid = some bot)
    (hNorm : normalize w = w)
    (hLen : ¬ w.length < MIN_WORD_LENGTH)
    (hDict : w ∈ dict)
    (hForm : canFormWord l.letters w = true)
    (hSub : ¬ w ∈ (getA l.submittedWords pid).getD [])
    (hRev : ∀ i, getA l.wordIndex w = some i →
        ¬ i ∈ (getA l.revealedByPlayer pid).getD []) :
    (submitWord dict l pid w).2 = botApplyPick l pid w
    ∧ ∃ pts, (submitWord dict l pid w).1 = SubmitResult.ok (w.map Char.toUpper) pts := by
  cases hIdx : getA l.wordIndex w with
  | some i =>
    have hEq := submitWord_success_some dict l pid w bot i hAct hP (by rwa [hNorm])
      (by rwa [hNorm]) (by rwa [hNorm]) (by rwa [hNorm]) (by rwa [hNorm]) (hRev i hIdx)
    rw [hEq, hNorm]
    by_cases hg : ((some i : Option Nat).isSome
        && decide ((addS ((getA l.revealedByPlayer pid).getD []) i).length
            = l.sessionWords.length)
        && !(decide (pid ∈ l.hiddenBonusAwarded))) = true
    · rw [finishSubmit_grant _ _ _ _ _ _ _ hg]
      constructor
      · simp only [botApplyPick, hP]
        rw [if_neg (show ¬ l.status ≠ Status.active from by simp [hAct])]
        simp only [hIdx]
        rw [if_neg (hRev i hIdx)]
        rw [getA_setA_self]
        dsimp only
        rw [if_pos hg, if_pos hg]
      · exact ⟨_, rfl⟩
    · rw [finishSubmit_nogrant _ _ _ _ _ _ _ hg]
      constructor
      · simp only [botApplyPick, hP]
        rw [if_neg (show ¬ l.status ≠ Status.active from by simp [hAct])]
        simp only [hIdx]
        rw [if_neg (hRev i hIdx)]
        rw [getA_setA_self]
        dsimp only
        rw [if_neg hg, if_neg hg]
      · exact ⟨_, rfl⟩
  | none =>
    have hEq := submitWord_success_none dict l pid w bot hAct hP (by rwa [hNorm])
      (by rwa [hNorm]) (by rwa [hNorm]) (by rwa [hNorm]) (by rwa [hNorm])
    rw [hEq, hNorm, finishSubmit_nogrant _ _ _ _ _ _ _ (by simp)]
    constructor
    · simp only [botApplyPick, hP]
      rw [if_neg (show ¬ l.status ≠ Status.active from by simp [hAct])]
      simp only [hIdx]
      simp only [Option.isSome_none, Bool.false_and, Bool.false_eq_true, if_false]
    · exact ⟨_, rfl⟩

/-- Witness for `C7_theorem` at the `L1` round and the word `cat`. -/
theorem C7_witness :
    (submitWord dictW L1 1 wcat).2 = botApplyPick L1 1 wcat
    ∧ ∃ pts, (submitWord dictW L1 1 wcat).1 = SubmitResult.ok (wcat.map Char.toUpper) pts :=
  C7_theorem dictW L1 1 wcat pAlice (by decide) (by decide) (by decide) (by decide)
    (by decide) (by decide) (by decide) (fun i _ => by simp [L1, getA])

theorem allPlayersReady_eq_false (l : Lobby) (q : Player) (hq : q ∈ l.players)
    (hr : q.ready = false) : allPlayersReady l = false := by
  apply Bool.eq_false_iff.mpr
  intro hall
  unfold allPlayersReady at hall
  rw [Bool.and_eq_true] at hall
  have h2 := List.all_eq_true.mp hall.2 q hq
  rw [hr] at h2
  exact Bool.false_ne_true h2

/-- Claim C6 (amended): during a lobby-status countdown, a player turning
un-ready always cancels the countdown (timers cleared, `lobbyCountdown
null` emitted); a leave that keeps a human-populated lobby does NOT touch
the countdown (no null emitted, flag unchanged); a disconnect that keeps
a human-populated lobby cancels the countdown exactly when the remaining
players are not all ready — if the survivors are all ready the countdown
keeps running and the round can still start at its expiry. -/
theorem C6_theorem (dict : List Word) (env : BuildEnv) (l : Lobby) (sid : PId)
    (p : Player) (now : Nat) :
    (l.status = Status.lobby → getPlayer l sid = some p →
      setReady dict env l sid false =
        some ({ l with
                  players := replaceFirst l.players sid ({ p with ready := false }),
                  countdownActive := false },
              [Emit.lobbyCountdown none]))
    ∧ ((l.players.filter (fun q => decide (q.id ≠ sid))).any
          (fun q => !(decide (q.id ∈ l.botIds))) = true →
      handleLeaveLobby l sid =
        HOut.live { l with
            players := l.players.filter (fun q => decide (q.id ≠ sid)),
            revealedByPlayer := eraseA l.revealedByPlayer sid } [])
    ∧ (getPlayer l sid = some p →
      (l.players.filter (fun q => decide (q.id ≠ sid))).any
          (fun q => !(decide (q.id ∈ l.botIds))) = true →
      (let l2 : Lobby := { l with
          players := l.players.filter (fun q => decide (q.id ≠ sid)),
          revealedByPlayer := eraseA l.revealedByPlayer sid,
          disconnectedPlayers := setA l.disconnectedPlayers p.name
            ⟨p, (getA l.revealedByPlayer sid).getD [], now⟩ };
       ((l.status = Status.lobby ∧ ¬ allPlayersReady l2 = true) →
         disconnectH now l sid =
           HOut.live { l2 with countdownActive := false } [Emit.lobbyCountdown none])
       ∧ (¬ (l.status = Status.lobby ∧ ¬ allPlayersReady l2 = true) →
         disconnectH now l sid = HOut.live l2 []))) := by
  refine ⟨?_, ?_, ?_⟩
  · intro hlob hp
    simp only [setReady, hp]
    have hmem : ({ p with ready := false } : Player) ∈
        replaceFirst l.players sid ({ p with ready := false }) :=
      mem_replaceFirst l.players sid p _ hp
    have hfalse : allPlayersReady { l with
        players := replaceFirst l.players sid ({ p with ready := false }) } = false :=
      allPlayersReady_eq_false _ _ hmem rfl
    rw [if_pos hlob, if_neg (by rw [hfalse]; exact Bool.false_ne_true)]
    rfl
  · intro hhum
    obtain ⟨q, hq, -⟩ := List.any_eq_true.mp hhum
    simp only [handleLeaveLobby]
    dsimp only
    rw [if_neg (fun hc => by rw [List.length_eq_zero] at hc; rw [hc] at hq; cases hq)]
    rw [if_neg (by rw [hhum]; decide)]
  · intro hp hhum
    obtain ⟨q, hq, -⟩ := List.any_eq_true.mp hhum
    refine ⟨?_, ?_⟩
    · intro hs
      simp only [disconnectH, hp]
      rw [if_neg (by rw [hhum]; decide)]
      rw [if_pos hs, if_pos hs]
      dsimp only [stopLobbyCountdown]
      rw [if_neg (fun hc => by
        have h0 := hc.1
        rw [List.length_eq_zero] at h0
        rw [h0] at hq
        cases hq)]
    · intro hs
      simp only [disconnectH, hp]
      rw [if_neg (by rw [hhum]; decide)]
      rw [if_neg hs, if_neg hs]
      rw [if_neg (fun hc => by
        have h0 := hc.1
        simp only [List.length_eq_zero] at h0
        rw [h0] at hq
        cases hq)]

/-- Claim C6, counterexample to the claim as stated: in `L6` (lobby
status, countdown active, three ready human players) player 1 leaves via
`handleLeaveLobby`; the countdown stays armed and no `lobbyCountdown
null` is emitted, so the leave case of the claim fails. -/
theorem C6_counterexample :
    houtCountdown (handleLeaveLobby L6 1) = some true
    ∧ houtEmits (handleLeaveLobby L6 1) = [] := by
  refine ⟨by decide, by decide⟩

/-- Witness for `C6_theorem`: un-ready and disconnect-with-unready-rest
cancel the countdown; leave and disconnect-with-all-ready-rest keep it. -/
theorem C6_witness :
    setReady dictW envC L6 1 false =
      some ({ L6 with
                players := replaceFirst L6.players 1 ({ pAlice with ready := false }),
                countdownActive := false },
            [Emit.lobbyCountdown none])
    ∧ handleLeaveLobby L6 1 =
        HOut.live { L6 with
            players := L6.players.filter (fun q => decide (q.id ≠ 1)),
            revealedByPlayer := eraseA L6.revealedByPlayer 1 } []
    ∧ disconnectH 0 L6 1 =
        HOut.live { L6 with
            players := L6.players.filter (fun q => decide (q.id ≠ 1)),
            revealedByPlayer := eraseA L6.revealedByPlayer 1,
            disconnectedPlayers := setA L6.disconnectedPlayers pAlice.name
              ⟨pAlice, (getA L6.revealedByPlayer 1).getD [], 0⟩ } []
    ∧ disconnectH 0 L6c 1 =
        HOut.live { L6c with
            players := L6c.players.filter (fun q => decide (q.id ≠ 1)),
            revealedByPlayer := eraseA L6c.revealedByPlayer 1,
            disconnectedPlayers := setA L6c.disconnectedPlayers pAlice.name
              ⟨pAlice, (getA L6c.revealedByPlayer 1).getD [], 0⟩,
            countdownActive := false } [Emit.lobbyCountdown none] :=
  ⟨(C6_theorem dictW envC L6 1 pAlice 0).1 (by decide) (by decide),
   (C6_theorem dictW envC L6 1 pAlice 0).2.1 (by decide),
   ((C6_theorem dictW envC L6 1 pAlice 0).2.2 (by decide) (by decide)).2 (by decide),
   ((C6_theorem dictW envC L6c 1 pAlice 0).2.2 (by decide) (by decide)).1 (by decide)⟩

/-- Claim C8 (amended): a disconnect, so long as a human remains, moves
the player's exact record and revealed set into a display-name-keyed
grace record, leaving status and ledgers untouched; and a join reaching a
lobby holding such a record (joins addressed by lobby id are first
rejected unless the lobby is in `lobby` status and below capacity)
cancels the cleanup timer, removes the record, and restores the roster
entry and revealed set under the new transport id. -/
theorem C8_theorem (dict : List Word) (env : BuildEnv) (byId : Bool) (l : Lobby)
    (sid sid' : PId) (p : Player) (now : Nat)
    (hP : getPlayer l sid = some p)
    (hHum : (l.players.filter (fun q => decide (q.id ≠ sid))).any
        (fun q => !(decide (q.id ∈ l.botIds))) = true) :
    (∀ l3 ems, disconnectH now l sid = HOut.live l3 ems →
      getA l3.disconnectedPlayers p.name =
        some ⟨p, (getA l.revealedByPlayer sid).getD [], now⟩
      ∧ l3.status = l.status
      ∧ l3.submittedWords = l.submittedWords
      ∧ l3.revealedByPlayer = eraseA l.revealedByPlayer sid)
    ∧ (∀ (m : Lobby) (rec : DiscRecord) (name : String),
      getA m.disconnectedPlayers name = some rec →
      (byId = true → m.status = Status.lobby ∧ m.players.length < MAX_PLAYERS) →
      (∀ q ∈ m.players, q.id ≠ sid') →
      joinLobby dict env byId m sid' name =
        some (JoinOut.joined
          { m with
              players := m.players ++ [{ rec.player with id := sid' }],
              revealedByPlayer := setA m.revealedByPlayer sid' rec.revealedWords,
              disconnectedPlayers := eraseA m.disconnectedPlayers name }
          [Emit.clearedCleanup name])
      ∧ getPlayer { m with
            players := m.players ++ [{ rec.player with id := sid' }],
            revealedByPlayer := setA m.revealedByPlayer sid' rec.revealedWords,
            disconnectedPlayers := eraseA m.disconnectedPlayers name } sid'
          = some { rec.player with id := sid' }
      ∧ getA (setA m.revealedByPlayer sid' rec.revealedWords) sid' = some rec.revealedWords
      ∧ getA (eraseA m.disconnectedPlayers name) name = none) := by
  constructor
  · intro l3 ems h
    simp only [disconnectH, hP] at h
    rw [if_neg (by rw [hHum]; decide)] at h
    split at h
    next hst =>
      split at h
      next hdz => cases h
      next hdz =>
        injection h with h1 h2
        subst h1
        refine ⟨?_, rfl, rfl, rfl⟩
        dsimp only [stopLobbyCountdown]
        rw [getA_setA_self]
    next hst =>
      split at h
      next hdz => cases h
      next hdz =>
        injection h with h1 h2
        subst h1
        refine ⟨?_, rfl, rfl, rfl⟩
        rw [getA_setA_self]
  · intro m rec name hrec hby hfresh
    have hjc : joinCore dict env m sid' name =
        some (JoinOut.joined
          { m with
              players := m.players ++ [{ rec.player with id := sid' }],
              revealedByPlayer := setA m.revealedByPlayer sid' rec.revealedWords,
              disconnectedPlayers := eraseA m.disconnectedPlayers name }
          [Emit.clearedCleanup name]) := by
      simp only [joinCore, hrec]
    have hfind : m.players.find? (fun q => decide (q.id = sid')) = none :=
      List.find?_eq_none.mpr (fun x hx => by simp [hfresh x hx])
    refine ⟨?_, ?_, getA_setA_self _ _ _, getA_eraseA_self _ _⟩
    · cases hb : byId with
      | true =>
        obtain ⟨hst, hlen⟩ := hby hb
        simp only [joinLobby, if_true]
        rw [if_neg (by simp [hst])]
        rw [if_neg (by omega)]
        exact hjc
      | false =>
        simp only [joinLobby, if_false]
        exact hjc
    · unfold getPlayer
      dsimp only
      rw [List.find?_append, hfind]
      simp [List.find?]

/-- Claim C8, counterexample to the claim as stated: ALICE holds a
grace-period record in the active-round lobby `L8`; a join under her
display name addressed to that lobby is rejected with "Lobby is not
accepting new players." before the reconnection branch runs, so nothing
is cancelled or restored even though the join arrived within the
window. -/
theorem C8_counterexample :
    joinLobby dictW envC true L8 9 "ALICE" =
      some (JoinOut.joinErr "Lobby is not accepting new players.")
    ∧ (getA L8.disconnectedPlayers "ALICE").isSome = true := by
  refine ⟨by decide, by decide⟩

/-- Witness for `C8_theorem`: ALICE disconnects from `L8b` and rejoins
under transport id 9. -/
theorem C8_witness :
    (∀ l3 ems, disconnectH 100 L8b 1 = HOut.live l3 ems →
      getA l3.disconnectedPlayers pAliceRich.name =
        some ⟨pAliceRich, (getA L8b.revealedByPlayer 1).getD [], 100⟩
      ∧ l3.status = L8b.status
      ∧ l3.submittedWords = L8b.submittedWords
      ∧ l3.revealedByPlayer = eraseA L8b.revealedByPlayer 1)
    ∧ (∀ (m : Lobby) (rec : DiscRecord) (name : String),
      getA m.disconnectedPlayers name = some rec →
      (false = true → m.status = Status.lobby ∧ m.players.length < MAX_PLAYERS) →
      (∀ q ∈ m.players, q.id ≠ 9) →
      joinLobby dictW envC false m 9 name =
        some (JoinOut.joined
          { m with
              players := m.players ++ [{ rec.player with id := 9 }],
              revealedByPlayer := setA m.revealedByPlayer 9 rec.revealedWords,
              disconnectedPlayers := eraseA m.disconnectedPlayers name }
          [Emit.clearedCleanup name])
      ∧ getPlayer { m with
            players := m.players ++ [{ rec.player with id := 9 }],
            revealedByPlayer := setA m.revealedByPlayer 9 rec.revealedWords,
            disconnectedPlayers := eraseA m.disconnectedPlayers name } 9
          = some { rec.player with id := 9 }
      ∧ getA (setA m.revealedByPlayer 9 rec.revealedWords) 9 = some rec.revealedWords
      ∧ getA (eraseA m.disconnectedPlayers name) name = none) :=
  C8_theorem dictW envC false L8b 1 9 pAliceRich 100 (by decide) (by decide)

/-- Claim C10: a reconnection never re-attaches the submission ledger —
the joined lobby's `submittedWords` map is exactly the pre-join map, so
the new transport id starts with no ledger — and re-submitting a word
whose hidden index is already in the restored revealed set therefore
passes the (empty) duplicate check and takes the penalizing "Word already
revealed." branch: 50 points subtracted, clamped at 0, streak fields
reset. -/
theorem C10_theorem (dict : List Word) (l : Lobby) (pid : PId) (raw : Word)
    (p : Player) (i : Nat) :
    (∀ (env : BuildEnv) (m : Lobby) (rec : DiscRecord) (name : String) (sid' : PId)
        (M : Lobby) (ems : List Emit) (byId : Bool),
      getA m.disconnectedPlayers name = some rec →
      joinLobby dict env byId m sid' name = some (JoinOut.joined M ems) →
      M.submittedWords = m.submittedWords)
    ∧ (l.status = Status.active →
      getPlayer l pid = some p →
      ¬ (normalize raw).length < MIN_WORD_LENGTH →
      normalize raw ∈ dict →
      canFormWord l.letters (normalize raw) = true →
      getA l.submittedWords pid = none →
      getA l.wordIndex (normalize raw) = some i →
      i ∈ (getA l.revealedByPlayer pid).getD [] →
      submitWord dict l pid raw =
        (SubmitResult.rejected "Word already revealed." (-(INVALID_WORD_PENALTY : Int)),
         { l with players := replaceFirst l.players pid (applyInvalidPenalty p) })
      ∧ (applyInvalidPenalty p).score = max 0 (p.score - (INVALID_WORD_PENALTY : Int))
      ∧ (applyInvalidPenalty p).streakCount = 0
      ∧ (applyInvalidPenalty p).streakPoints = 0
      ∧ (applyInvalidPenalty p).streakBonusApplied = 0) := by
  constructor
  · intro env m rec name sid' M ems byId hrec hjoin
    cases byId with
    | true =>
      simp only [joinLobby, if_true] at hjoin
      split at hjoin
      · exact absurd hjoin (by simp)
      · split at hjoin
        · exact absurd hjoin (by simp)
        · simp only [joinCore, hrec] at hjoin
          rw [Option.some.injEq] at hjoin
          injection hjoin with hM hems
          rw [← hM]
    | false =>
      simp only [joinLobby, Bool.false_eq_true, if_false] at hjoin
      simp only [joinCore, hrec] at hjoin
      rw [Option.some.injEq] at hjoin
      injection hjoin with hM hems
      rw [← hM]
  · intro hAct hP hLen hDict hForm hSubNone hIdx hRev
    refine ⟨?_, rfl, rfl, rfl, rfl⟩
    simp only [submitWord, hP]
    rw [if_neg (by simp [hAct])]
    rw [if_neg hLen]
    rw [if_neg (not_not_intro hDict)]
    rw [if_neg (not_not_intro hForm)]
    rw [if_neg (show ¬ normalize raw ∈ (getA l.submittedWords pid).getD [] from by
      rw [hSubNone]; simp)]
    simp only [hIdx]
    rw [if_pos hRev]
    rfl

/-- Witness for `C10_theorem`: ALICE reconnects into `L8` as id 9 —
producing `L10r` with the old ledger untouched — and resubmits `cat`,
whose index 0 her restored revealed set already holds. -/
theorem C10_witness :
    L10r.submittedWords = L8.submittedWords
    ∧ (submitWord dictW L10r 9 wcat =
        (SubmitResult.rejected "Word already revealed." (-(INVALID_WORD_PENALTY : Int)),
         { L10r with players := replaceFirst L10r.players 9 (applyInvalidPenalty pAliceNew) })
      ∧ (applyInvalidPenalty pAliceNew).score
          = max 0 (pAliceNew.score - (INVALID_WORD_PENALTY : Int))
      ∧ (applyInvalidPenalty pAliceNew).streakCount = 0
      ∧ (applyInvalidPenalty pAliceNew).streakPoints = 0
      ∧ (applyInvalidPenalty pAliceNew).streakBonusApplied = 0) :=
  ⟨(C10_theorem dictW L10r 9 wcat pAliceNew 0).1 envC L8 recAlice "ALICE" 9 L10r
      [Emit.clearedCleanup "ALICE"] false (by decide) (by decide),
   (C10_theorem dictW L10r 9 wcat pAliceNew 0).2 (by decide) (by decide) (by decide)
      (by decide) (by decide) (by decide) (by decide) (by decide)⟩

end LetterTiles
